import Mathlib

/-!
# LitePlex streaming protocol bridge — verification

Shallow embedding of the streaming core of LitePlex:
* the client-side stream consumer (`ChatInterface.sendMessage` read loop in
  `frontend/src/components/ChatInterface.tsx`), which parses `data: ` framed
  server-sent events and applies them to the in-progress assistant message;
* its line-reassembly buffer (`buffer += chunk; lines = buffer.split('\n');
  buffer = lines.pop()`);
* the relay route handler (`app/api/chat/route.ts` `POST`), which bridges the
  backend event stream to the client wire protocol;
* the submission guard and error/abort handling of `sendMessage`.

JSON values are embedded as a record of the (optional) fields the code reads;
`JSON.parse` outcomes are embedded as a sum of a parsed record or an
unparsable raw line, since the dynamic parse itself is not under study.
-/

namespace LitePlex

/-- Embeds `interface Source { index; title; url }` from `ChatInterface.tsx`. -/
structure Source where
  index : Nat
  title : String
  url : String
deriving DecidableEq, Repr

/-- The `'user' | 'assistant'` role tag of `interface Message`. -/
inductive Role where
  | user
  | assistant
deriving DecidableEq, Repr

/-- Embeds `interface Message { id; role; content; thinking?; sources?; timestamp }`
from `ChatInterface.tsx`; the timestamp is never read or written by the
stream loop and is omitted. Optional fields are `Option`s (`none` =
`undefined`). -/
structure Message where
  id : String
  role : Role
  content : String
  thinking : Option String := none
  sources : Option (List Source) := none
deriving DecidableEq, Repr

/-- Embeds `type WorkflowStatus = 'thinking' | 'searching' | 'summarizing' | null`;
the `null` case is `Option.none` at use sites. -/
inductive WStatus where
  | thinking
  | searching
  | summarizing
deriving DecidableEq, Repr

/-- A parsed JSON event object, restricted to the fields the consumer and the
relay ever access. Each field is optional, mirroring property access on a
dynamic object (`none` = the key is absent/`undefined`). -/
structure ParsedEvent where
  type : String
  content : Option String := none
  delta : Option String := none
  sources : Option (List Source) := none
  status : Option String := none
  id : Option String := none
deriving DecidableEq, Repr

/-- The outcome of one `data: ` line in the consumer loop: the `[DONE]`
sentinel, a successful `JSON.parse`, or a parse failure (the `catch (e)`
branch that only logs `Raw data:`). -/
inductive DataLine where
  | done
  | parsed (p : ParsedEvent)
  | unparsable (raw : String)
deriving DecidableEq, Repr

/-- JavaScript `a || d` on an optional string: `undefined` and `''` are
falsy, so they fall through to the default. -/
def truthyOr (a : Option String) (d : String) : String :=
  match a with
  | some s => if s = "" then d else s
  | none => d

/-- The mutation pattern shared by every event branch of the consumer:
`const lastMessage = newMessages[newMessages.length - 1];
if (lastMessage.role === 'assistant') { …mutate lastMessage… }`.
Only the last element is touched, and only when its role is assistant. -/
def modifyLastAssistant (msgs : List Message) (f : Message → Message) :
    List Message :=
  match msgs.getLast? with
  | some m => if m.role = Role.assistant then msgs.dropLast ++ [f m] else msgs
  | none => msgs

/-- Consumer-side mutable state touched by the read loop: the `messages`
array and the `currentStatus` workflow indicator. -/
structure ConsState where
  msgs : List Message
  status : Option WStatus := none
deriving DecidableEq, Repr

/-- One step of the consumer's event dispatch (`ChatInterface.tsx` lines
244–292): the `if/else` chain on `parsed.type`.

* `'content' | 'text-delta'`: `lastMessage.content += parsed.content ||
  parsed.delta || ''`.
* `'sources'`: `sources: parsed.sources` — wholesale replacement.
* `'thinking'`: `lastMessage.thinking = (lastMessage.thinking || '') +
  (parsed.content || '')`.
* `'status'`: sets `currentStatus` for `'searching'`/`'summarizing'` only.
* any other `type` (including `start`, `text-start`, `text-end`): no effect.

Note the code performs no span-id bookkeeping: `parsed.id` is never read. -/
def applyParsed (st : ConsState) (p : ParsedEvent) : ConsState :=
  if p.type = "content" ∨ p.type = "text-delta" then
    { st with msgs := modifyLastAssistant st.msgs (fun m =>
        { m with content := m.content ++ truthyOr p.content (truthyOr p.delta "") }) }
  else if p.type = "sources" then
    { st with msgs := modifyLastAssistant st.msgs (fun m =>
        { m with sources := p.sources }) }
  else if p.type = "thinking" then
    { st with msgs := modifyLastAssistant st.msgs (fun m =>
        { m with thinking := some (truthyOr m.thinking "" ++ truthyOr p.content "") }) }
  else if p.type = "status" then
    if p.status = some "searching" then { st with status := some WStatus.searching }
    else if p.status = some "summarizing" then { st with status := some WStatus.summarizing }
    else st
  else st

/-- The consumer's inner line loop: apply parsed events in order, skip
unparsable lines, and `break` on the `[DONE]` sentinel. Returns the final
state and whether `[DONE]` was reached. -/
def runLines (st : ConsState) : List DataLine → ConsState × Bool
  | [] => (st, false)
  | DataLine.done :: _ => (st, true)
  | DataLine.unparsable _ :: rest => runLines st rest
  | DataLine.parsed p :: rest => runLines (applyParsed st p) rest

/-- Event constructors exactly as the relay emits them
(`app/api/chat/route.ts`): a `text-delta` frame carries `{type, id, delta}`. -/
def mkTextDelta (tid delta : String) : ParsedEvent :=
  { type := "text-delta", id := some tid, delta := some delta }

/-- Relay `thinking` frame: `{type: 'thinking', content}`. -/
def mkThinking (c : String) : ParsedEvent :=
  { type := "thinking", content := some c }

/-- Relay `status` frame: `{type: 'status', status}`. -/
def mkStatus (s : String) : ParsedEvent :=
  { type := "status", status := some s }

/-- Relay `sources` frame: `{type: 'sources', sources}`. -/
def mkSources (ss : List Source) : ParsedEvent :=
  { type := "sources", sources := some ss }

/-- Relay `text-start` frame: `{type: 'text-start', id}`. -/
def mkTextStart (tid : String) : ParsedEvent :=
  { type := "text-start", id := some tid }

/-- Relay `text-end` frame: `{type: 'text-end', id}`. -/
def mkTextEnd (tid : String) : ParsedEvent :=
  { type := "text-end", id := some tid }

/-- Relay `start` frame: `{type: 'start', messageId}` (the consumer reads no
field of it beyond `type`, so `messageId` is carried in `id`). -/
def mkStart (mid : String) : ParsedEvent :=
  { type := "start", id := some mid }

/-- The assistant placeholder appended by `sendMessage` before the first byte
arrives: `{ id, role: 'assistant', content: '', thinking: '', timestamp }`. -/
def mkAssistantPlaceholder (mid : String) : Message :=
  { id := mid, role := Role.assistant, content := "", thinking := some "" }

/-- The user message appended synchronously by `sendMessage`. -/
def mkUserMessage (mid text : String) : Message :=
  { id := mid, role := Role.user, content := text }

end LitePlex

namespace LitePlex

/-!
## Chunk reassembly

The consumer's read loop keeps a string `buffer`; per chunk it runs
`buffer += chunk; const lines = buffer.split('\n'); buffer = lines.pop() || ''`
and processes the complete `lines`. Strings are embedded as `List Char`.
`splitFrames l` returns the complete (newline-terminated) segments of `l`
together with the trailing segment after the last newline — i.e. exactly
(`lines` after `pop`, the popped value) of `l.split('\n')`.
-/

/-- Computes `l.split('\n')` with the last (possibly incomplete) segment separated
out: first component = all complete lines, second = the retained buffer. -/
def splitFrames : List Char → List (List Char) × List Char
  | [] => ([], [])
  | c :: cs =>
    let r := splitFrames cs
    if c = '\n' then ([] :: r.1, r.2)
    else
      match r.1 with
      | [] => ([], c :: r.2)
      | s :: rest => ((c :: s) :: rest, r.2)

/-- One `feed` of the reassembly buffer: append the chunk to the buffer,
split, emit complete lines, retain the rest. -/
def feed (buffer chunk : List Char) : List (List Char) × List Char :=
  splitFrames (buffer ++ chunk)

/-- The whole read loop over a sequence of chunks: thread the buffer through
successive `feed`s, concatenating the emitted lines. -/
def feedAll (buffer : List Char) : List (List Char) → List (List Char) × List Char
  | [] => ([], buffer)
  | c :: cs =>
    let r := feed buffer c
    let r2 := feedAll r.2 cs
    (r.1 ++ r2.1, r2.2)

/-!
## Relay transformer (`app/api/chat/route.ts` `POST`)

The handler validates the request body, performs a single `fetch` to the
backend, and on success re-frames the backend's event lines; any failure
(validation, connection error, or `!response.ok`) falls into the outer
`catch`, which returns a plain HTTP 500 JSON response. The would-be
upstream response is passed in as a parameter: `none` models the `fetch`
call itself throwing (connection failure). -/

/-- One element of the request's `messages` array: `{role, content}`. -/
structure RelayMsg where
  role : String
  content : String
deriving DecidableEq, Repr

/-- A backend HTTP response as the relay observes it: `response.ok`, the
status code, and the backend's `data: ` lines (each either a parsed JSON
event or an unparsable line, mirroring the inner `try { JSON.parse } catch`). -/
structure UpstreamResp where
  ok : Bool
  status : Nat
  lines : List DataLine
deriving DecidableEq, Repr

/-- What the route handler returns: a 200 SSE stream of framed events, or a
plain JSON error response (`status` 500). -/
inductive RelayResult where
  | stream (frames : List DataLine)
  | httpError (status : Nat) (body : String)
deriving DecidableEq, Repr

/-- The fixed body of the relay's error response:
`JSON.stringify({ error: 'Failed to process chat request' })`. -/
def relayErrBody : String := "\x7b\"error\":\"Failed to process chat request\"\x7d"

/-- The per-upstream-event mapping of the relay's inner loop (route.ts lines
92–121): `status`/`thinking`/`sources` forwarded with the fields shown,
`content` re-framed as `text-delta{id, delta}`; any other type (and any
unparsable line) produces no outbound frame. -/
def relayMapLine (textId : String) : DataLine → Option ParsedEvent
  | DataLine.parsed p =>
    if p.type = "status" then some { type := "status", status := p.status }
    else if p.type = "thinking" then some { type := "thinking", content := p.content }
    else if p.type = "content" then
      some { type := "text-delta", id := some textId, delta := p.content }
    else if p.type = "sources" then some { type := "sources", sources := p.sources }
    else none
  | DataLine.unparsable _ => none
  | DataLine.done => none

/-- The full route handler: body validation (`messages` nonempty, last
message has nonempty `content`), the single backend fetch, and the outbound
stream `start`, `text-start`, mapped events, `text-end`, `[DONE]`. Every
`throw` lands in the outer `catch`, producing `httpError 500 relayErrBody`. -/
def relayPOST (messages : List RelayMsg) (mid textId : String)
    (upstream : Option UpstreamResp) : RelayResult :=
  if messages.isEmpty then RelayResult.httpError 500 relayErrBody
  else if ((messages.getLast?.map RelayMsg.content).getD "") = "" then
    RelayResult.httpError 500 relayErrBody
  else
    match upstream with
    | none => RelayResult.httpError 500 relayErrBody
    | some r =>
      if ¬ r.ok then RelayResult.httpError 500 relayErrBody
      else
        RelayResult.stream
          ([DataLine.parsed (mkStart mid), DataLine.parsed (mkTextStart textId)]
            ++ (r.lines.filterMap (fun l => (relayMapLine textId l).map DataLine.parsed))
            ++ [DataLine.parsed (mkTextEnd textId), DataLine.done])

/-!
## Request controller (`sendMessage` guard, catch handler, stopGeneration)
-/

/-- The fixed fallback text written by the consumer's error handler. -/
def fallbackText : String := "Sorry, an error occurred. Please try again."

/-- The `catch` block's mutation (ChatInterface.tsx lines 305–312):
unconditionally overwrite the last assistant message's `content` with
`fallbackText`. Run for every caught error whose `name` is not
`'AbortError'`. -/
def applyErrorFallback (msgs : List Message) : List Message :=
  modifyLastAssistant msgs (fun m => { m with content := fallbackText })

/-- The error value observed by `sendMessage`'s `catch`: an `AbortError`
(from `stopGeneration` calling `abortController.abort()`) or any other
error (network failure, `!response.ok` throw, …). -/
inductive JsError where
  | abortError
  | otherError (message : String)
deriving DecidableEq, Repr

/-- Terminal state of one exchange, per the spec's Exchange vocabulary:
determined by how `sendMessage` finished. -/
inductive Outcome where
  | completed
  | aborted
  | errored
deriving DecidableEq, Repr

/-- The end of `sendMessage`: the `catch` dispatch on `error.name ===
'AbortError'` (abort → log only; otherwise write the fallback), then the
`finally` block (`setIsLoading(false); setCurrentStatus(null)`). `none`
means the read loop returned without throwing (completed). -/
def finishExchange (st : ConsState) (err : Option JsError) : ConsState × Outcome :=
  match err with
  | none => ({ msgs := st.msgs, status := none }, Outcome.completed)
  | some JsError.abortError => ({ msgs := st.msgs, status := none }, Outcome.aborted)
  | some (JsError.otherError _) =>
      ({ msgs := applyErrorFallback st.msgs, status := none }, Outcome.errored)

/-- The synchronous prefix of `sendMessage`: the guard
`if (!messageText.trim() || isLoading) return` and, when it passes, the
append of the user message and the assistant placeholder plus
`setIsLoading(true)` and the fetch. `requestIssued` records whether the
fetch was reached. Message ids come from `Date.now()` (`now`,`now+1`). -/
structure SendOutcome where
  messages : List Message
  requestIssued : Bool
  isLoading : Bool
deriving DecidableEq, Repr

/-- Embeds `sendMessage` up to (and including) issuing the request. -/
def sendMessageStart (messageText : String) (isLoading : Bool)
    (msgs : List Message) (now : Nat) : SendOutcome :=
  if messageText.trim = "" ∨ isLoading then
    { messages := msgs, requestIssued := false, isLoading := isLoading }
  else
    { messages := msgs ++ [mkUserMessage (toString now) messageText,
        mkAssistantPlaceholder (toString (now + 1))],
      requestIssued := true, isLoading := true }

/-- Concatenation of a list of strings in order (used to state the
accumulated `content`/`thinking` of a stream of deltas). -/
def concatAll : List String → String
  | [] => ""
  | s :: rest => s ++ concatAll rest

/-- The three event kinds of claim C1's interleaving: `text-delta`,
`thinking`, `status`, with the payloads the relay puts on each. -/
inductive ExchEvent where
  | td (tid delta : String)
  | th (content : String)
  | st (status : String)
deriving DecidableEq, Repr

/-- The `data:` line carrying an `ExchEvent`. -/
def ExchEvent.toLine : ExchEvent → DataLine
  | .td tid d => DataLine.parsed (mkTextDelta tid d)
  | .th c => DataLine.parsed (mkThinking c)
  | .st s => DataLine.parsed (mkStatus s)

/-- The `text-delta` payloads of a stream, in arrival order. -/
def deltasOf : List ExchEvent → List String :=
  List.filterMap (fun e => match e with | .td _ d => some d | _ => none)

/-- The `thinking` payloads of a stream, in arrival order. -/
def thinksOf : List ExchEvent → List String :=
  List.filterMap (fun e => match e with | .th c => some c | _ => none)

/-- How the completed lines of a second text merge after a first: the first
text's trailing partial segment is glued onto the first completed line of
the second text (if the second text completes any line at all). -/
def glueOut (tail : List Char) : List (List Char) → List (List Char)
  | [] => []
  | s :: rest => (tail ++ s) :: rest

/-- The retained buffer after concatenating two texts, given the split of
each: the second text's buffer, prefixed by the first text's buffer when the
second text completes no line. -/
def glueBuf (tail : List Char) (out : List (List Char)) (buf : List Char) :
    List Char :=
  match out with
  | [] => tail ++ buf
  | _ :: _ => buf

section HelperLemmas

theorem truthyOr_some_empty (s : String) : truthyOr (some s) "" = s := by
  unfold truthyOr
  split <;> simp_all

theorem truthyOr_none (d : String) : truthyOr none d = d := rfl

theorem runLines_cons_parsed (st : ConsState) (p : ParsedEvent) (l : List DataLine) :
    runLines st (DataLine.parsed p :: l) = runLines (applyParsed st p) l := rfl

theorem modifyLastAssistant_concat_any (ms : List Message) (m : Message)
    (f : Message → Message) :
    modifyLastAssistant (ms ++ [m]) f
      = ms ++ [if m.role = Role.assistant then f m else m] := by
  show (match (ms ++ [m]).getLast? with
    | some m' => if m'.role = Role.assistant then (ms ++ [m]).dropLast ++ [f m']
        else ms ++ [m]
    | none => ms ++ [m]) = _
  rw [List.getLast?_concat]
  show (if m.role = Role.assistant then (ms ++ [m]).dropLast ++ [f m]
      else ms ++ [m]) = _
  rw [List.dropLast_concat]
  by_cases h : m.role = Role.assistant <;> simp [h]

theorem modifyLastAssistant_concat (ms : List Message) (m : Message)
    (h : m.role = Role.assistant) (f : Message → Message) :
    modifyLastAssistant (ms ++ [m]) f = ms ++ [f m] := by
  rw [modifyLastAssistant_concat_any, if_pos h]

theorem modifyLastAssistant_dropLast (msgs : List Message) (f : Message → Message) :
    (modifyLastAssistant msgs f).dropLast = msgs.dropLast := by
  rcases List.eq_nil_or_concat msgs with rfl | ⟨ms, m', rfl⟩
  · rfl
  · rw [List.concat_eq_append, modifyLastAssistant_concat_any,
      List.dropLast_concat, List.dropLast_concat]

theorem modifyLastAssistant_length (msgs : List Message) (f : Message → Message) :
    (modifyLastAssistant msgs f).length = msgs.length := by
  rcases List.eq_nil_or_concat msgs with rfl | ⟨ms, m', rfl⟩
  · rfl
  · rw [List.concat_eq_append, modifyLastAssistant_concat_any]
    simp

theorem modifyLastAssistant_not_assistant (msgs : List Message)
    (f : Message → Message) (m : Message) (hlast : msgs.getLast? = some m)
    (h : ¬ m.role = Role.assistant) :
    modifyLastAssistant msgs f = msgs := by
  unfold modifyLastAssistant
  rw [hlast]
  simp [h]

theorem modifyLastAssistant_nil (f : Message → Message) :
    modifyLastAssistant [] f = [] := rfl

/-- Running the C1 event kinds from any state whose last message is an
assistant message with known fields accumulates deltas into `content` and
thinking chunks into `thinking`, leaving everything else in the list
untouched. -/
theorem runLines_exch_aux (evs : List ExchEvent) (ms : List Message)
    (mid : String) (srcs : Option (List Source)) (c t : String)
    (st0 : Option WStatus) :
    (runLines
        ⟨ms ++ [{ id := mid, role := Role.assistant, content := c,
                  thinking := some t, sources := srcs }], st0⟩
        (evs.map ExchEvent.toLine)).1.msgs
      = ms ++ [{ id := mid, role := Role.assistant,
                 content := c ++ concatAll (deltasOf evs),
                 thinking := some (t ++ concatAll (thinksOf evs)),
                 sources := srcs }] := by
  induction evs generalizing c t st0 with
  | nil =>
    simp [runLines, deltasOf, thinksOf, concatAll, String.append_empty]
  | cons e rest ih =>
    cases e with
    | td tid d =>
      have happ : applyParsed
          ⟨ms ++ [{ id := mid, role := Role.assistant, content := c,
                    thinking := some t, sources := srcs }], st0⟩
          (mkTextDelta tid d)
        = ⟨ms ++ [{ id := mid, role := Role.assistant, content := c ++ d,
                    thinking := some t, sources := srcs }], st0⟩ := by
        simp [applyParsed, mkTextDelta, truthyOr_some_empty, truthyOr_none,
          modifyLastAssistant_concat_any]
      show (runLines _
        (DataLine.parsed (mkTextDelta tid d) :: rest.map ExchEvent.toLine)).1.msgs = _
      rw [runLines_cons_parsed, happ, ih]
      simp [deltasOf, thinksOf, concatAll, List.filterMap_cons, String.append_assoc]
    | th tc =>
      have happ : applyParsed
          ⟨ms ++ [{ id := mid, role := Role.assistant, content := c,
                    thinking := some t, sources := srcs }], st0⟩
          (mkThinking tc)
        = ⟨ms ++ [{ id := mid, role := Role.assistant, content := c,
                    thinking := some (t ++ tc), sources := srcs }], st0⟩ := by
        simp [applyParsed, mkThinking, truthyOr_some_empty, truthyOr_none,
          modifyLastAssistant_concat_any]
      show (runLines _
        (DataLine.parsed (mkThinking tc) :: rest.map ExchEvent.toLine)).1.msgs = _
      rw [runLines_cons_parsed, happ, ih]
      simp [deltasOf, thinksOf, concatAll, List.filterMap_cons, String.append_assoc]
    | st s =>
      have happ : ∃ st1, applyParsed
          ⟨ms ++ [{ id := mid, role := Role.assistant, content := c,
                    thinking := some t, sources := srcs }], st0⟩
          (mkStatus s)
        = ⟨ms ++ [{ id := mid, role := Role.assistant, content := c,
                    thinking := some t, sources := srcs }], st1⟩ := by
        by_cases h1 : s = "searching"
        · exact ⟨some WStatus.searching, by simp [applyParsed, mkStatus, h1]⟩
        · by_cases h2 : s = "summarizing"
          · exact ⟨some WStatus.summarizing, by simp [applyParsed, mkStatus, h1, h2]⟩
          · exact ⟨st0, by simp [applyParsed, mkStatus, h1, h2]⟩
      obtain ⟨st1, happ⟩ := happ
      show (runLines _
        (DataLine.parsed (mkStatus s) :: rest.map ExchEvent.toLine)).1.msgs = _
      rw [runLines_cons_parsed, happ, ih]
      simp [deltasOf, thinksOf, concatAll, List.filterMap_cons]

theorem splitFrames_append (a b : List Char) :
    splitFrames (a ++ b)
      = ((splitFrames a).1 ++ glueOut (splitFrames a).2 (splitFrames b).1,
         glueBuf (splitFrames a).2 (splitFrames b).1 (splitFrames b).2) := by
  induction a with
  | nil =>
    show splitFrames b
      = (glueOut [] (splitFrames b).1, glueBuf [] (splitFrames b).1 (splitFrames b).2)
    generalize splitFrames b = sb
    obtain ⟨fb, tb⟩ := sb
    cases fb <;> simp [glueOut, glueBuf]
  | cons c cs ih =>
    by_cases hc : c = '\n'
    · subst hc
      show splitFrames ('\n' :: (cs ++ b)) = _
      rw [show ∀ l, splitFrames ('\n' :: l) = ([] :: (splitFrames l).1, (splitFrames l).2)
          from fun l => by simp [splitFrames]]
      rw [show splitFrames ('\n' :: cs) = ([] :: (splitFrames cs).1, (splitFrames cs).2)
          from by simp [splitFrames]]
      rw [ih]
      rfl
    · show splitFrames (c :: (cs ++ b)) = _
      have hstep : ∀ l, splitFrames (c :: l)
          = (match (splitFrames l).1 with
             | [] => ([], c :: (splitFrames l).2)
             | s :: rest => ((c :: s) :: rest, (splitFrames l).2)) := by
        intro l
        simp only [splitFrames]
        rw [if_neg hc]
      rw [hstep, hstep, ih]
      generalize splitFrames cs = scs
      obtain ⟨fcs, tcs⟩ := scs
      generalize splitFrames b = sb
      obtain ⟨fb, tb⟩ := sb
      cases fcs <;> cases fb <;> simp [glueOut, glueBuf]

/-- The retained buffer never contains the delimiter. -/
theorem splitFrames_buf_no_nl (l : List Char) : '\n' ∉ (splitFrames l).2 := by
  induction l with
  | nil => simp [splitFrames]
  | cons c cs ih =>
    by_cases hc : c = '\n'
    · subst hc
      simpa [splitFrames] using ih
    · have hstep : splitFrames (c :: cs)
          = (match (splitFrames cs).1 with
             | [] => ([], c :: (splitFrames cs).2)
             | s :: rest => ((c :: s) :: rest, (splitFrames cs).2)) := by
        simp only [splitFrames]
        rw [if_neg hc]
      rw [hstep]
      revert ih
      generalize splitFrames cs = scs
      obtain ⟨fcs, tcs⟩ := scs
      intro ih
      cases fcs with
      | nil =>
        intro hmem
        rcases List.mem_cons.mp hmem with h | h
        · exact hc h.symm
        · exact ih h
      | cons s rest => exact ih

/-- A delimiter-free text completes no line: it is retained whole. -/
theorem splitFrames_no_nl (l : List Char) (h : '\n' ∉ l) :
    splitFrames l = ([], l) := by
  induction l with
  | nil => rfl
  | cons c cs ih =>
    have hc : ¬ c = '\n' := fun he => h (he ▸ List.mem_cons_self c cs)
    have hcs := ih (fun hm => h (List.mem_cons_of_mem c hm))
    simp only [splitFrames, if_neg hc, hcs]

theorem feedAll_eq_feed_join (cs : List (List Char)) (buffer : List Char)
    (h : cs ≠ []) : feedAll buffer cs = feed buffer cs.flatten := by
  induction cs generalizing buffer with
  | nil => exact absurd rfl h
  | cons c rest ih =>
    cases rest with
    | nil =>
      show ((feed buffer c).1 ++ (feedAll (feed buffer c).2 []).1,
            (feedAll (feed buffer c).2 []).2) = feed buffer ([c].flatten)
      simp [feedAll, feed, List.flatten]
    | cons c2 rest2 =>
      show ((feed buffer c).1 ++ (feedAll (feed buffer c).2 (c2 :: rest2)).1,
            (feedAll (feed buffer c).2 (c2 :: rest2)).2)
        = feed buffer ((c :: c2 :: rest2).flatten)
      rw [ih _ (by simp)]
      have hbuf : splitFrames (splitFrames (buffer ++ c)).2
          = ([], (splitFrames (buffer ++ c)).2) :=
        splitFrames_no_nl _ (splitFrames_buf_no_nl _)
      show ((splitFrames (buffer ++ c)).1
              ++ (splitFrames ((splitFrames (buffer ++ c)).2 ++ (c2 :: rest2).flatten)).1,
            (splitFrames ((splitFrames (buffer ++ c)).2 ++ (c2 :: rest2).flatten)).2)
        = splitFrames (buffer ++ (c ++ (c2 :: rest2).flatten))
      rw [← List.append_assoc,
        splitFrames_append (buffer ++ c) ((c2 :: rest2).flatten),
        splitFrames_append ((splitFrames (buffer ++ c)).2) ((c2 :: rest2).flatten),
        hbuf]
      rfl

end HelperLemmas

/-!
## Claim theorems
-/

/-- C1: for every stream of `Thinking`, `TextDelta` and `Status` events
delivered during one exchange, exactly as the relay frames them and in any
interleaving, the final assistant message's `content` equals the
concatenation of the `text-delta` payloads in arrival order and its
`thinking` equals the concatenation of the `thinking` payloads in arrival
order; `status` events change neither field (they only touch the separate
`currentStatus` indicator), and earlier messages are untouched. -/
theorem claim1_ordering_concat (evs : List ExchEvent) (ms : List Message)
    (mid : String) (st0 : Option WStatus) :
    (runLines ⟨ms ++ [mkAssistantPlaceholder mid], st0⟩
        (evs.map ExchEvent.toLine)).1.msgs
      = ms ++ [{ id := mid, role := Role.assistant,
                 content := concatAll (deltasOf evs),
                 thinking := some (concatAll (thinksOf evs)),
                 sources := none }] := by
  have h := runLines_exch_aux evs ms mid none "" "" st0
  simp only [mkAssistantPlaceholder]
  rw [h]
  simp [String.empty_append]

/-- C2 counterexample: the claim says partial streamed content survives a
non-abort error, but the `catch` handler overwrites `content`
unconditionally: with partial content `"Par"` present, the message ends
with the fixed failure string, not `"Par"`. -/
theorem claim2_counterexample :
    (applyErrorFallback
        [mkUserMessage "1" "q",
         { mkAssistantPlaceholder "2" with content := "Par" }]).getLast?.map
        Message.content
      = some fallbackText ∧ fallbackText ≠ "Par" := by
  decide

/-- C2 amended: when the read loop ends with a non-abort error, the last
message's `content` is overwritten with the fixed failure string whenever
that message is an assistant message — regardless of any partial content —
the workflow status is cleared, and the exchange ends `Errored`; no
separate status signal carries the error. -/
theorem claim2_error_overwrites (ms : List Message) (m : Message)
    (h : m.role = Role.assistant) (st0 : Option WStatus) (emsg : String) :
    finishExchange ⟨ms ++ [m], st0⟩ (some (JsError.otherError emsg))
      = (⟨ms ++ [{ m with content := fallbackText }], none⟩, Outcome.errored) := by
  unfold finishExchange applyErrorFallback
  rw [modifyLastAssistant_concat _ _ h]

/-- C2 witness: the amended theorem applied to a message holding partial
content `"Par"`. -/
theorem claim2_witness :
    finishExchange ⟨[{ mkAssistantPlaceholder "2" with content := "Par" }], none⟩
        (some (JsError.otherError "network"))
      = (⟨[{ mkAssistantPlaceholder "2" with content := fallbackText }], none⟩,
         Outcome.errored) :=
  claim2_error_overwrites [] _ rfl none "network"

/-- C3: feeding any chunking of a text through the reassembly buffer, one
chunk at a time, yields exactly the complete frames of the whole text, in
order — the same output (and the same retained buffer) as feeding the whole
text in a single chunk. Each frame appears exactly once at its position in
the canonical split, so no frame is emitted before its terminating
delimiter has arrived; decoded events coincide because decoding is a
function of the emitted frame list. -/
theorem claim3_reassembly_split_invariant (chunks : List (List Char)) :
    feedAll [] chunks = feed [] chunks.flatten := by
  cases chunks with
  | nil => rfl
  | cons c cs => exact feedAll_eq_feed_join (c :: cs) [] (by simp)

/-- C4 counterexample: on a non-success upstream status (`ok = false`,
status 502) the relay does not emit a terminal `Error` event on an outbound
stream — it returns a plain HTTP 500 JSON error response and never opens
the outbound stream at all. -/
theorem claim4_counterexample :
    relayPOST [{ role := "user", content := "hi" }] "m1" "t1"
        (some { ok := false, status := 502, lines := [] })
      = RelayResult.httpError 500 relayErrBody := by
  decide

/-- C4 amended: when the single upstream connection attempt fails (the
`fetch` throws, modelled by `none`) or returns a non-success status, the
relay responds with one HTTP 500 JSON error body (`relayErrBody`), opens no
outbound event stream (hence emits no frames and no `Error` event), and
performs no retry — the model performs exactly one fetch by construction. -/
theorem claim4_upstream_failure_http500 (messages : List RelayMsg)
    (mid textId : String) (upstream : Option UpstreamResp)
    (h : ∀ r, upstream = some r → r.ok = false) :
    relayPOST messages mid textId upstream
      = RelayResult.httpError 500 relayErrBody := by
  cases upstream with
  | none =>
    unfold relayPOST
    split
    · rfl
    · split
      · rfl
      · rfl
  | some r =>
    have hr : r.ok = false := h r rfl
    unfold relayPOST
    split
    · rfl
    · split
      · rfl
      · simp [hr]

/-- C4 witness: the amended theorem at a concrete connection failure. -/
theorem claim4_witness :
    relayPOST [{ role := "user", content := "hi" }] "m1" "t1" none
      = RelayResult.httpError 500 relayErrBody :=
  claim4_upstream_failure_http500 _ _ _ none (fun _ hr => Option.noConfusion hr)

/-- C5 counterexample: a `text-delta` on span `s1` arriving after
`text-end{s1}` is not dropped — starting from content `""`, the sequence
`text-start, delta "A", text-end, delta "X"` ends with content `"AX"`,
whereas without the late delta it ends with `"A"`; the late delta changed
the content. -/
theorem claim5_counterexample :
    ((runLines ⟨[mkUserMessage "1" "q", mkAssistantPlaceholder "2"], none⟩
        [DataLine.parsed (mkTextStart "s1"),
         DataLine.parsed (mkTextDelta "s1" "A"),
         DataLine.parsed (mkTextEnd "s1"),
         DataLine.parsed (mkTextDelta "s1" "X")]).1.msgs.getLast?.map
        Message.content = some "AX")
    ∧ ((runLines ⟨[mkUserMessage "1" "q", mkAssistantPlaceholder "2"], none⟩
        [DataLine.parsed (mkTextStart "s1"),
         DataLine.parsed (mkTextDelta "s1" "A"),
         DataLine.parsed (mkTextEnd "s1")]).1.msgs.getLast?.map
        Message.content = some "A")
    ∧ ("AX" : String) ≠ "A" := by
  decide

/-- C5 amended: the consumer does no span bookkeeping: `text-end` (like
`text-start`) is a no-op, and a subsequent `text-delta` — whatever span id
it carries — is appended to the last assistant message anyway. -/
theorem claim5_late_delta_applied (ms : List Message) (m : Message)
    (h : m.role = Role.assistant) (tid tid2 d : String) (st0 : Option WStatus) :
    (runLines ⟨ms ++ [m], st0⟩
        [DataLine.parsed (mkTextEnd tid),
         DataLine.parsed (mkTextDelta tid2 d)]).1.msgs
      = ms ++ [{ m with content := m.content ++ d }] := by
  simp [runLines, runLines_cons_parsed, applyParsed, mkTextEnd, mkTextDelta,
    modifyLastAssistant_concat_any, h, truthyOr_some_empty, truthyOr_none]

/-- C5 witness: the amended theorem at a concrete late delta. -/
theorem claim5_witness :
    (runLines ⟨[mkAssistantPlaceholder "2"], none⟩
        [DataLine.parsed (mkTextEnd "s1"),
         DataLine.parsed (mkTextDelta "s1" "X")]).1.msgs
      = [{ mkAssistantPlaceholder "2" with content := "" ++ "X" }] :=
  claim5_late_delta_applied [] _ rfl "s1" "s1" "X" none

/-- C6: an undecodable frame is skipped and the stream stays open — for
`text-delta "Hel"`, garbage, `text-delta "lo"`, `[DONE]` the final content
is `"Hello"`, the `[DONE]` sentinel is reached, and the exchange finishes
`Completed`. -/
theorem claim6_malformed_frame_skipped :
    ((runLines ⟨[mkUserMessage "1" "q", mkAssistantPlaceholder "2"],
        some WStatus.thinking⟩
        [DataLine.parsed (mkTextDelta "t" "Hel"),
         DataLine.unparsable "<garbage>",
         DataLine.parsed (mkTextDelta "t" "lo"),
         DataLine.done]).1.msgs.getLast?.map Message.content = some "Hello")
    ∧ ((runLines ⟨[mkUserMessage "1" "q", mkAssistantPlaceholder "2"],
        some WStatus.thinking⟩
        [DataLine.parsed (mkTextDelta "t" "Hel"),
         DataLine.unparsable "<garbage>",
         DataLine.parsed (mkTextDelta "t" "lo"),
         DataLine.done]).2 = true)
    ∧ (finishExchange
        (runLines ⟨[mkUserMessage "1" "q", mkAssistantPlaceholder "2"],
          some WStatus.thinking⟩
          [DataLine.parsed (mkTextDelta "t" "Hel"),
           DataLine.unparsable "<garbage>",
           DataLine.parsed (mkTextDelta "t" "lo"),
           DataLine.done]).1 none).2 = Outcome.completed := by
  decide

/-- C7: a user abort after any prefix of delta/thinking/status events and
before `Done` finishes the exchange `Aborted`, the assistant message's
content is exactly the concatenation of the deltas applied so far (no
fallback error text is written), and the workflow status is cleared. -/
theorem claim7_abort_preserves_partial (evs : List ExchEvent) (ms : List Message)
    (mid : String) (st0 : Option WStatus) :
    finishExchange
        (runLines ⟨ms ++ [mkAssistantPlaceholder mid], st0⟩
          (evs.map ExchEvent.toLine)).1
        (some JsError.abortError)
      = (⟨ms ++ [{ id := mid, role := Role.assistant,
                   content := concatAll (deltasOf evs),
                   thinking := some (concatAll (thinksOf evs)),
                   sources := none }], none⟩,
         Outcome.aborted) := by
  simp only [finishExchange, mkAssistantPlaceholder]
  rw [runLines_exch_aux evs ms mid none "" "" st0]
  simp [String.empty_append]

/-- C8: each `sources` event replaces the target message's `sources` field
wholesale: after two `sources` events the message carries exactly the second
list. -/
theorem claim8_sources_replace (ms : List Message) (m : Message)
    (h : m.role = Role.assistant) (s1 s2 : List Source) (st0 : Option WStatus) :
    (runLines ⟨ms ++ [m], st0⟩
        [DataLine.parsed (mkSources s1), DataLine.parsed (mkSources s2)]).1.msgs
      = ms ++ [{ m with sources := some s2 }] := by
  simp [runLines, runLines_cons_parsed, applyParsed, mkSources,
    modifyLastAssistant_concat_any, h]

/-- C8 witness: the claim's own example, `[{1,..}]` then `[{1,..},{2,..}]`. -/
theorem claim8_witness :
    (runLines ⟨[mkAssistantPlaceholder "2"], none⟩
        [DataLine.parsed (mkSources [⟨1, "a", "u"⟩]),
         DataLine.parsed (mkSources [⟨1, "a", "u"⟩, ⟨2, "b", "v"⟩])]).1.msgs
      = [{ mkAssistantPlaceholder "2" with
            sources := some [⟨1, "a", "u"⟩, ⟨2, "b", "v"⟩] }] :=
  claim8_sources_replace [] _ rfl _ _ none

/-- C9: a submission made while an exchange is in flight (`isLoading`
true) is rejected outright by the guard at the top of `sendMessage`: the
message list is unchanged (no user message, no placeholder appended) and no
request is issued — nothing is queued. -/
theorem claim9_submission_rejected_while_loading (messageText : String)
    (msgs : List Message) (now : Nat) :
    sendMessageStart messageText true msgs now
      = { messages := msgs, requestIssued := false, isLoading := true } := by
  unfold sendMessageStart
  rw [if_pos (Or.inr rfl)]

/-- C10: one event application mutates at most the last message of the
list: every earlier message is unchanged (equal `dropLast`), the length is
preserved, and when the last message is not an assistant message — or the
list is empty — no message changes at all. -/
theorem claim10_mutates_only_last_assistant (p : ParsedEvent) (st : ConsState) :
    (applyParsed st p).msgs.dropLast = st.msgs.dropLast
    ∧ (applyParsed st p).msgs.length = st.msgs.length
    ∧ (∀ m, st.msgs.getLast? = some m → ¬ m.role = Role.assistant →
        (applyParsed st p).msgs = st.msgs)
    ∧ (st.msgs = [] → (applyParsed st p).msgs = st.msgs) := by
  have hmod : ∀ f : Message → Message,
      (modifyLastAssistant st.msgs f).dropLast = st.msgs.dropLast
      ∧ (modifyLastAssistant st.msgs f).length = st.msgs.length
      ∧ (∀ m, st.msgs.getLast? = some m → ¬ m.role = Role.assistant →
          modifyLastAssistant st.msgs f = st.msgs)
      ∧ (st.msgs = [] → modifyLastAssistant st.msgs f = st.msgs) := by
    intro f
    refine ⟨modifyLastAssistant_dropLast _ _, modifyLastAssistant_length _ _,
      fun m hm hr => modifyLastAssistant_not_assistant _ _ m hm hr, fun he => ?_⟩
    rw [he]
    rfl
  unfold applyParsed
  split
  · exact hmod _
  · split
    · exact hmod _
    · split
      · exact hmod _
      · split
        · split
          · exact ⟨rfl, rfl, fun _ _ _ => rfl, fun _ => rfl⟩
          · split
            · exact ⟨rfl, rfl, fun _ _ _ => rfl, fun _ => rfl⟩
            · exact ⟨rfl, rfl, fun _ _ _ => rfl, fun _ => rfl⟩
        · exact ⟨rfl, rfl, fun _ _ _ => rfl, fun _ => rfl⟩

/-- C10 witness: a `text-delta` aimed at a list whose last message is a
user message leaves the list unchanged. -/
theorem claim10_witness :
    (applyParsed ⟨[mkUserMessage "1" "q"], none⟩ (mkTextDelta "t" "X")).msgs
      = [mkUserMessage "1" "q"] :=
  (claim10_mutates_only_last_assistant (mkTextDelta "t" "X")
      ⟨[mkUserMessage "1" "q"], none⟩).2.2.1 _ rfl (by decide)

end LitePlex
